import Mathlib

/-
Verification of the face-search album indexer (src/main.py).

The program maintains an sqlite-backed index of face embeddings for the
image files of an album directory.  We embed the observable state of the
index (the rows of the `files` and `link` tables, in insertion order) and
the operations `insert`, `list_files`, `list_links`, `find_face`, the
sync loop of `main`, its `--delete-index` branch, and the byte-level
numpy codec (`adapt_numpy_array` / `convert_numpy_array`) registered
with sqlite.

External collaborators (the face-embedding extractor
`face_recognition.face_encodings ∘ load_image_file` and the comparator
`face_recognition.compare_faces`) are black boxes per the specification;
they appear as function parameters.  Embedding vectors are modelled as
lists of 64-bit words (the bit patterns of the float64 entries), so that
"exact floating-point equality" is bit-for-bit equality of the words.
-/

namespace FaceSearch

/-- An embedding vector: the float64 entries of the numpy array, each
represented by its 64-bit bit pattern (a natural number below 2^64). -/
abbrev Vec := List Nat

/- ===== Byte-level numpy codec (main.py lines 23-37) =====

`adapt_numpy_array` serialises a 1-d float64 ndarray with `numpy.save`
into an npy-format blob; `convert_numpy_array` reads it back with
`numpy.load`.  We model the npy version 1.0 byte layout: the magic
string \x93NUMPY, version bytes 1 0, a 2-byte little-endian header
length, the ASCII header dict padded with spaces to a 64-byte boundary
and terminated by a newline, then the raw data, each float64 as 8
little-endian bytes. -/

/-- The `k` little-endian bytes of `n`. -/
def natToLE : Nat → Nat → List Nat
  | 0, _ => []
  | k + 1, n => n % 256 :: natToLE k (n / 256)

/-- Read a little-endian byte list back into a natural number. -/
def leToNat : List Nat → Nat
  | [] => 0
  | b :: bs => b + 256 * leToNat bs

/-- The decimal digits of `n`, most significant first. -/
def natToDecDigits (n : Nat) : List Nat :=
  if _h : n < 10 then [n] else natToDecDigits (n / 10) ++ [n % 10]
decreasing_by exact Nat.div_lt_self (by omega) (by omega)

/-- The ASCII codes of the decimal representation of `n`. -/
def natToAscii (n : Nat) : List Nat :=
  (natToDecDigits n).map (fun d => d + 48)

/-- Read a decimal number from the front of an ASCII byte list,
stopping at the first non-digit byte (accumulator-style). -/
def readDec : List Nat → Nat → Nat × List Nat
  | [], acc => (acc, [])
  | c :: rest, acc =>
    if 48 ≤ c ∧ c ≤ 57 then readDec rest (acc * 10 + (c - 48))
    else (acc, c :: rest)

/-- The npy magic bytes \x93NUMPY followed by the version bytes 1 0. -/
def npyMagic : List Nat := [147, 78, 85, 77, 80, 89, 1, 0]

/-- ASCII codes of the fixed part of the npy header dict before the
shape count: an open brace, then
'descr': '<f8', 'fortran_order': False, 'shape': ( -/
def dictHead : List Nat :=
  [123, 39, 100, 101, 115, 99, 114, 39, 58, 32, 39, 60, 102, 56, 39,
   44, 32, 39, 102, 111, 114, 116, 114, 97, 110, 95, 111, 114, 100,
   101, 114, 39, 58, 32, 70, 97, 108, 115, 101, 44, 32, 39, 115, 104,
   97, 112, 101, 39, 58, 32, 40]

/-- ASCII codes of the fixed part of the npy header dict after the
shape count: a comma, a close paren, a comma, a space, a close brace. -/
def dictTail : List Nat := [44, 41, 44, 32, 125]

/-- The unpadded header dict for a 1-d array of `n` float64 entries. -/
def dictBody (n : Nat) : List Nat := dictHead ++ natToAscii n ++ dictTail

/-- Number of space bytes of padding: the total header (10 bytes of
magic, version and length field, plus dict, padding and newline) is a
multiple of 64. -/
def padLen (n : Nat) : Nat := (64 - ((dictBody n).length + 11) % 64) % 64

/-- The padded, newline-terminated header dict whose length is stored
in the 2-byte length field. -/
def headerDict (n : Nat) : List Nat :=
  dictBody n ++ List.replicate (padLen n) 32 ++ [10]

/-- The raw data section: each float64 entry as 8 little-endian bytes. -/
def bytesOfVec : Vec → List Nat
  | [] => []
  | x :: xs => natToLE 8 x ++ bytesOfVec xs

/-- Models `adapt_numpy_array` (main.py lines 23-27): serialise the
array to its npy blob with `numpy.save`. -/
def adapt_numpy_array (v : Vec) : List Nat :=
  npyMagic ++ natToLE 2 (headerDict v.length).length
    ++ headerDict v.length ++ bytesOfVec v

/-- Read `k` float64 entries (8 little-endian bytes each) from a data
section. -/
def readVec : Nat → List Nat → Vec
  | 0, _ => []
  | k + 1, bytes => leToNat (bytes.take 8) :: readVec k (bytes.drop 8)

/-- Models `convert_numpy_array` (main.py lines 30-33): parse the npy
blob back into the array with `numpy.load`; `none` models the parse
errors `numpy.load` can raise. -/
def convert_numpy_array (b : List Nat) : Option Vec :=
  if b.take 8 = npyMagic then
    let hlen := leToNat ((b.drop 8).take 2)
    let dict := (b.drop 10).take hlen
    let data := (b.drop 10).drop hlen
    if dict.take dictHead.length = dictHead then
      let n := (readDec (dict.drop dictHead.length) 0).1
      if n * 8 ≤ data.length then some (readVec n data) else none
    else none
  else none

/- ===== The index store (class AlbumIndex, main.py lines 40-102) =====

The observable state of the sqlite database: the rows of the `files`
table and of the `link` table, in insertion (rowid) order.  Thanks to
the registered adapter/converter pair the `face_vector` column behaves
as an ndarray at the API boundary; the codec above is verified
separately to be lossless. -/

structure AlbumIndex where
  files : List String
  link : List (String × Vec)
deriving DecidableEq

/-- Models `AlbumIndex.list_files` (lines 79-82): `SELECT * FROM files`
collected into a Python set of names. -/
def AlbumIndex.list_files (idx : AlbumIndex) : Finset String :=
  idx.files.toFinset

/-- Models `AlbumIndex.list_links` (lines 84-87): all rows of `link` in
storage order. -/
def AlbumIndex.list_links (idx : AlbumIndex) : List (String × Vec) :=
  idx.link

/-- Models `AlbumIndex.insert` (lines 66-77) with a total extractor
`ext` standing for `face_recognition.face_encodings ∘ load_image_file`:
one `files` row for `filename` and one `link` row per returned
encoding, appended unconditionally (the schema has no UNIQUE constraint
and the method performs no duplicate check). -/
def AlbumIndex.insert (ext : String → List Vec) (idx : AlbumIndex)
    (filename : String) : AlbumIndex :=
  { files := idx.files ++ [filename]
    link := idx.link ++ (ext filename).map (fun e => (filename, e)) }

/-- Models `AlbumIndex.find_face` (lines 89-102) with the query-side
extractor `query_ext` and the comparator `compare_faces` (so that
`compare_faces known q` stands for
`face_recognition.compare_faces([known], q)[0]`): zero encodings return
an empty list, more than one raises, exactly one filters `list_links`
in storage order and keeps the filename of each matching row. -/
def AlbumIndex.find_face (query_ext : String → List Vec)
    (compare_faces : Vec → Vec → Bool) (idx : AlbumIndex)
    (path : String) : Except String (List String) :=
  match query_ext path with
  | [] => Except.ok []
  | [q] =>
    Except.ok (((idx.list_links).filter
      (fun p => compare_faces p.2 q)).map Prod.fst)
  | _ :: _ :: _ =>
    Except.error "Support for multiple faces is input is unimplemented"

/- ===== The album (class Album, main.py lines 105-118) ===== -/

/-- One filesystem object under the album root, described by the two
predicates `Album.list_files` consults: `pathlib.is_file` and the
content sniff `filetype.is_image`.  `path` is the POSIX-normalised path
relative to the root (`file.relative_to(self.path).as_posix()`). -/
structure FSEntry where
  path : String
  is_file : Bool
  is_image : Bool
deriving DecidableEq

/-- Models `Album.list_files` (lines 113-118): the relative POSIX paths
of the regular files whose content sniffs as an image. -/
def Album.list_files (entries : List FSEntry) : List String :=
  (entries.filter (fun e => e.is_file && e.is_image)).map FSEntry.path

/- ===== The sync loop of main (main.py lines 140-145) ===== -/

/-- Models line 141: the current files not yet recorded in the store. -/
def new_files (idx : AlbumIndex) (current : List String) : List String :=
  current.filter (fun f => decide (f ∉ idx.list_files))

/-- Models lines 140-145 with a total extractor: insert every new file
in listing order. -/
def sync (ext : String → List Vec) (idx : AlbumIndex)
    (current : List String) : AlbumIndex :=
  (new_files idx current).foldl (AlbumIndex.insert ext) idx

/-- Fallible variant of `AlbumIndex.insert`: the extractor may raise
(e.g. a corrupt image makes `load_image_file` fail).  Extraction runs
before any SQL, and the transaction commits only at the end, so a
failed insert leaves the store untouched. -/
def insertE (ext : String → Except String (List Vec)) (idx : AlbumIndex)
    (filename : String) : Except String AlbumIndex :=
  match ext filename with
  | Except.error e => Except.error e
  | Except.ok encodings =>
    Except.ok
      { files := idx.files ++ [filename]
        link := idx.link ++ encodings.map (fun e => (filename, e)) }

/-- The `for file in new_files: index.insert(file)` loop of lines
144-145 with a fallible extractor: the first exception propagates and
aborts the loop, leaving the store as committed so far. -/
def sync_run (ext : String → Except String (List Vec))
    (idx : AlbumIndex) : List String → AlbumIndex × Option String
  | [] => (idx, none)
  | f :: fs =>
    match insertE ext idx f with
    | Except.error e => (idx, some e)
    | Except.ok idx2 => sync_run ext idx2 fs

/-- Models lines 140-145 with a fallible extractor: the final store
state together with the exception, if any, that aborted the run. -/
def syncE (ext : String → Except String (List Vec)) (idx : AlbumIndex)
    (current : List String) : AlbumIndex × Option String :=
  sync_run ext idx (new_files idx current)

/- ===== The delete branch of main (main.py lines 131-135) ===== -/

/-- Models the `--delete-index` branch: given whether the store file
exists (`index.exists()`), return whether it exists afterwards together
with the error raised, if any.  The unlink is guarded by
`if index.exists():`, so a missing store falls through to `return`. -/
def delete_index (store_present : Bool) : Bool × Option String :=
  if store_present then (false, none) else (store_present, none)

/- ===== Helper lemmas about the sync loop ===== -/

theorem foldl_insert_files (ext : String → List Vec) (fs : List String)
    (idx : AlbumIndex) :
    (fs.foldl (AlbumIndex.insert ext) idx).files = idx.files ++ fs := by
  induction fs generalizing idx with
  | nil => simp
  | cons f fs ih => simp [List.foldl_cons, ih, AlbumIndex.insert]

theorem mem_foldl_insert_link (ext : String → List Vec)
    (fs : List String) (idx : AlbumIndex) (p : String × Vec) :
    p ∈ (fs.foldl (AlbumIndex.insert ext) idx).link ↔
      p ∈ idx.link ∨ ∃ g ∈ fs, p.1 = g ∧ p.2 ∈ ext g := by
  induction fs generalizing idx with
  | nil => simp
  | cons f fs ih =>
    rw [List.foldl_cons, ih]
    simp only [AlbumIndex.insert, List.mem_append, List.mem_map,
      List.mem_cons]
    constructor
    · rintro ((hp | ⟨e, he, hep⟩) | ⟨g, hg, h1, h2⟩)
      · exact Or.inl hp
      · exact Or.inr ⟨f, Or.inl rfl, by rw [← hep]; exact ⟨rfl, he⟩⟩
      · exact Or.inr ⟨g, Or.inr hg, h1, h2⟩
    · rintro (hp | ⟨g, (rfl | hg), h1, h2⟩)
      · exact Or.inl (Or.inl hp)
      · refine Or.inl (Or.inr ⟨p.2, h2, ?_⟩)
        rw [← h1]
      · exact Or.inr ⟨g, hg, h1, h2⟩

theorem sync_files (ext : String → List Vec) (idx : AlbumIndex)
    (current : List String) :
    (sync ext idx current).files = idx.files ++ new_files idx current :=
  foldl_insert_files ext (new_files idx current) idx

theorem mem_list_files_sync (ext : String → List Vec) (idx : AlbumIndex)
    (current : List String) (f : String) :
    f ∈ (sync ext idx current).list_files ↔
      f ∈ idx.list_files ∨ f ∈ current := by
  unfold AlbumIndex.list_files
  rw [List.mem_toFinset, sync_files, List.mem_append]
  unfold new_files
  rw [List.mem_filter]
  simp only [decide_eq_true_eq, AlbumIndex.list_files, List.mem_toFinset]
  by_cases hf : f ∈ idx.files <;> tauto

theorem list_files_sync (ext : String → List Vec) (idx : AlbumIndex)
    (current : List String) :
    (sync ext idx current).list_files =
      idx.list_files ∪ current.toFinset := by
  ext f
  rw [mem_list_files_sync, Finset.mem_union, List.mem_toFinset]

/- ===== C1: idempotence of sync ===== -/

/-- C1: for a fixed album snapshot (a fixed current file listing and a
fixed extractor), running sync twice in a row leaves the store exactly
as one run does: the second run's new-file set is empty, so no files
row and no link row is inserted a second time. -/
theorem sync_idempotent (ext : String → List Vec) (idx : AlbumIndex)
    (current : List String) :
    new_files (sync ext idx current) current = [] ∧
    sync ext (sync ext idx current) current = sync ext idx current := by
  have h : new_files (sync ext idx current) current = [] := by
    rw [List.eq_nil_iff_forall_not_mem]
    intro f hf
    rw [new_files, List.mem_filter, decide_eq_true_eq] at hf
    exact hf.2 ((mem_list_files_sync ext idx current f).2 (Or.inr hf.1))
  refine ⟨h, ?_⟩
  show (new_files (sync ext idx current) current).foldl
    (AlbumIndex.insert ext) (sync ext idx current) = sync ext idx current
  rw [h]
  rfl

/- ===== C5: completeness of sync ===== -/

/-- C5 counterexample: a store holding a stale entry for a file no
longer present under the root keeps it after sync, so listFilenames is
a strict superset of the current image files, not equal to them. -/
theorem sync_completeness_cex :
    (sync (fun _ => ([] : List Vec)) (AlbumIndex.mk ["stale.jpg"] [])
        (Album.list_files [FSEntry.mk "a.jpg" true true])).list_files ≠
      (Album.list_files [FSEntry.mk "a.jpg" true true]).toFinset := by
  intro h
  have : "stale.jpg" ∈
      (Album.list_files [FSEntry.mk "a.jpg" true true]).toFinset := by
    rw [← h]
    exact (mem_list_files_sync _ _ _ _).2 (Or.inl (by decide))
  revert this
  decide

/-- C5 amended: after sync, listFilenames is the union of the
previously recorded filenames with the current image files (the
relative POSIX paths of regular files sniffed as images); it equals
exactly the current image files whenever every previously recorded
filename is still among them — in particular for a store that was
empty or was only ever synced against listings without removals. -/
theorem sync_completeness (ext : String → List Vec) (idx : AlbumIndex)
    (entries : List FSEntry)
    (h : idx.list_files ⊆ (Album.list_files entries).toFinset) :
    (sync ext idx (Album.list_files entries)).list_files =
      (Album.list_files entries).toFinset := by
  rw [list_files_sync, Finset.union_eq_right.mpr h]

/-- C5 witness: syncing a fresh store against a root holding one image
file, one non-image file and one directory records exactly the image
file. -/
theorem sync_completeness_witness :
    (AlbumIndex.mk [] []).list_files ⊆
      (Album.list_files [FSEntry.mk "a.jpg" true true,
        FSEntry.mk "notes.txt" true false,
        FSEntry.mk "sub" false false]).toFinset ∧
    (sync (fun _ => ([] : List Vec)) (AlbumIndex.mk [] [])
        (Album.list_files [FSEntry.mk "a.jpg" true true,
          FSEntry.mk "notes.txt" true false,
          FSEntry.mk "sub" false false])).list_files =
      (Album.list_files [FSEntry.mk "a.jpg" true true,
        FSEntry.mk "notes.txt" true false,
        FSEntry.mk "sub" false false]).toFinset :=
  ⟨by decide, sync_completeness _ _ _ (by decide)⟩

/- ===== C6: zero-face files are recorded and never reprocessed ===== -/

/-- C6: a file in the current listing whose extraction yields zero
embeddings is still recorded: after sync it is present in
listFilenames, owns zero link rows (none existed before and none is
added), and is not in the new-file set of any subsequent sync, so it
is never reprocessed. -/
theorem sync_zero_face (ext : String → List Vec) (idx : AlbumIndex)
    (current : List String) (f : String) (h0 : ext f = [])
    (h1 : f ∈ current) (h2 : ∀ e, (f, e) ∉ idx.link) :
    f ∈ (sync ext idx current).list_files ∧
    (∀ e, (f, e) ∉ (sync ext idx current).link) ∧
    f ∉ new_files (sync ext idx current) current := by
  refine ⟨(mem_list_files_sync ext idx current f).2 (Or.inr h1), ?_, ?_⟩
  · intro e he
    rcases (mem_foldl_insert_link ext _ idx (f, e)).1 he with
      hmem | ⟨g, _, hg, hee⟩
    · exact h2 e hmem
    · rw [show g = f from hg.symm, h0] at hee
      exact List.not_mem_nil _ hee
  · intro hf
    rw [new_files, List.mem_filter, decide_eq_true_eq] at hf
    exact hf.2 ((mem_list_files_sync ext idx current f).2 (Or.inr h1))

/-- C6 witness: a single file with zero detected faces is recorded
with no link rows and does not reappear as new work. -/
theorem sync_zero_face_witness :
    "b.jpg" ∈ (sync (fun _ => ([] : List Vec)) (AlbumIndex.mk [] [])
      ["b.jpg"]).list_files ∧
    (∀ e, ("b.jpg", e) ∉ (sync (fun _ => ([] : List Vec))
      (AlbumIndex.mk [] []) ["b.jpg"]).link) ∧
    "b.jpg" ∉ new_files (sync (fun _ => ([] : List Vec))
      (AlbumIndex.mk [] []) ["b.jpg"]) ["b.jpg"] :=
  sync_zero_face _ _ _ _ rfl (by decide) (fun e => List.not_mem_nil _)

/- ===== C3: duplicate insertion ===== -/

/-- C3 counterexample: inserting a filename that already has a files
row does not fail — the files table has no UNIQUE constraint and
insert performs no duplicate check — it simply appends a second row
for the same filename. -/
theorem insert_duplicate_cex :
    (AlbumIndex.insert (fun _ => ([] : List Vec))
        (AlbumIndex.mk ["a.jpg"] []) "a.jpg").files =
      ["a.jpg", "a.jpg"] := by
  decide

/-- C3 amended: insert does not reject a filename that already has an
AlbumEntry; it appends a second files row for it (the row count for
that filename increases by one) while the set-valued listFilenames
view is unchanged.  Uniqueness rests solely on callers pre-filtering
via listFilenames, as the sync loop does. -/
theorem insert_duplicate (ext : String → List Vec) (idx : AlbumIndex)
    (f : String) (h : f ∈ idx.list_files) :
    (AlbumIndex.insert ext idx f).list_files = idx.list_files ∧
    (AlbumIndex.insert ext idx f).files.count f =
      idx.files.count f + 1 := by
  constructor
  · unfold AlbumIndex.insert AlbumIndex.list_files
    rw [AlbumIndex.list_files, List.mem_toFinset] at h
    ext g
    simp only [List.mem_toFinset, List.mem_append, List.mem_singleton]
    constructor
    · rintro (hg | rfl)
      · exact hg
      · exact h
    · exact Or.inl
  · unfold AlbumIndex.insert
    rw [List.count_append]
    simp

/-- C3 witness: re-inserting an already-indexed filename leaves the
filename set unchanged but bumps its row count from one to two. -/
theorem insert_duplicate_witness :
    (AlbumIndex.insert (fun _ => ([] : List Vec))
        (AlbumIndex.mk ["a.jpg"] []) "a.jpg").list_files =
      (AlbumIndex.mk ["a.jpg"] []).list_files ∧
    (AlbumIndex.insert (fun _ => ([] : List Vec))
        (AlbumIndex.mk ["a.jpg"] []) "a.jpg").files.count "a.jpg" =
      (AlbumIndex.mk ["a.jpg"] []).files.count "a.jpg" + 1 :=
  insert_duplicate _ _ _ (by decide)

/- ===== C4: the delete branch ===== -/

/-- C4 counterexample: with no store present the delete branch raises
nothing — the unlink is guarded by the existence check, so deleting a
non-existent store is a silent no-op, not a NotFound error. -/
theorem delete_missing_no_error : delete_index false = (false, none) :=
  rfl

/-- C4 amended: the delete branch never raises: on an existing store it
removes the store file, and on a missing store it is a silent no-op;
in both cases no store exists afterwards, so a subsequent open finds
none. -/
theorem delete_index_spec (b : Bool) :
    (delete_index b).1 = false ∧ (delete_index b).2 = none := by
  cases b <;> exact ⟨rfl, rfl⟩

/- ===== C2: per-file handling of extraction failures ===== -/

/-- C2: evaluating the sync loop at a listing of two new files where
extraction raises on the first: the exception propagates and aborts
the run with the store unchanged, so the second file is never
processed or recorded — the loop has no per-file handler. -/
theorem sync_aborts_on_extraction_failure :
    syncE
        (fun f => if f = "bad.jpg" then Except.error "ExtractionFailure"
          else Except.ok ([[1]] : List Vec))
        (AlbumIndex.mk [] []) ["bad.jpg", "good.jpg"] =
      (AlbumIndex.mk [] [], some "ExtractionFailure") := by
  decide

/- ===== C8, C9, C10: find_face ===== -/

/-- C8: when the query-side extractor detects more than one face in the
query image, find_face raises the multiple-faces error instead of
silently picking one face; no result list is returned. -/
theorem find_face_ambiguous (query_ext : String → List Vec)
    (compare_faces : Vec → Vec → Bool) (idx : AlbumIndex)
    (path : String) (h : 2 ≤ (query_ext path).length) :
    idx.find_face query_ext compare_faces path =
      Except.error "Support for multiple faces is input is unimplemented"
    := by
  unfold AlbumIndex.find_face
  match hq : query_ext path with
  | [] => rw [hq] at h; simp at h
  | [q] => rw [hq] at h; simp at h
  | a :: b :: rest => rfl

/-- C8 witness: a query image with two detected faces is rejected. -/
theorem find_face_ambiguous_witness :
    2 ≤ ((fun _ => ([[1], [2]] : List Vec)) "q.jpg").length ∧
    (AlbumIndex.mk [] []).find_face (fun _ => ([[1], [2]] : List Vec))
        (fun _ _ => true) "q.jpg" =
      Except.error "Support for multiple faces is input is unimplemented"
    :=
  ⟨by decide, find_face_ambiguous _ _ _ _ (by decide)⟩

/-- C9: when the query-side extractor detects zero faces in the query
image, find_face returns an empty list and raises no error. -/
theorem find_face_no_face (query_ext : String → List Vec)
    (compare_faces : Vec → Vec → Bool) (idx : AlbumIndex)
    (path : String) (h : query_ext path = []) :
    idx.find_face query_ext compare_faces path = Except.ok [] := by
  unfold AlbumIndex.find_face
  rw [h]

/-- C9 witness: a query image with no detected face yields an empty
result. -/
theorem find_face_no_face_witness :
    (fun _ => ([] : List Vec)) "q.jpg" = [] ∧
    (AlbumIndex.mk ["a.jpg"] [("a.jpg", [1])]).find_face
        (fun _ => ([] : List Vec)) (fun _ _ => true) "q.jpg" =
      Except.ok [] :=
  ⟨rfl, find_face_no_face _ _ _ _ rfl⟩

theorem count_map_fst_filter (l : List (String × Vec))
    (pred : String × Vec → Bool) (f : String) :
    ((l.filter pred).map Prod.fst).count f =
      (l.filter (fun p => pred p && decide (p.1 = f))).length := by
  induction l with
  | nil => rfl
  | cons p l ih =>
    by_cases hp : pred p = true
    · by_cases hf : p.1 = f
      · simp [List.filter_cons, hp, hf, List.count_cons, ih]
      · simp [List.filter_cons, hp, hf, List.count_cons, ih]
    · simp [List.filter_cons, Bool.eq_false_iff.2 hp, ih]

/-- C10: with exactly one detected query face, find_face succeeds with
a result list that is a sublist of the stored filenames in storage
(insertion-scan) order, in which each filename occurs once per stored
link row for it whose vector the comparator accepts against the query
vector — a file owning k matching embeddings appears k times, with no
de-duplication. -/
theorem find_face_single (query_ext : String → List Vec)
    (compare_faces : Vec → Vec → Bool) (idx : AlbumIndex)
    (path : String) (q : Vec) (h : query_ext path = [q]) :
    ∃ res, idx.find_face query_ext compare_faces path = Except.ok res ∧
      res.Sublist (idx.link.map Prod.fst) ∧
      ∀ f, res.count f = (idx.link.filter
        (fun p => compare_faces p.2 q && decide (p.1 = f))).length := by
  refine ⟨((idx.link.filter (fun p => compare_faces p.2 q)).map
    Prod.fst), ?_, ?_, ?_⟩
  · unfold AlbumIndex.find_face
    rw [h]
    rfl
  · exact (List.filter_sublist _).map Prod.fst
  · intro f
    exact count_map_fst_filter idx.link _ f

/-- C10 witness: a store in which "a.jpg" owns two matching embeddings
and "b.jpg" owns a non-matching one: "a.jpg" is reported twice, in
storage order, with no de-duplication. -/
theorem find_face_single_witness :
    (fun _ => ([[1]] : List Vec)) "q.jpg" = [[1]] ∧
    ∃ res,
      (AlbumIndex.mk ["a.jpg", "b.jpg"]
          [("a.jpg", [1]), ("b.jpg", [2]), ("a.jpg", [3])]).find_face
          (fun _ => ([[1]] : List Vec))
          (fun known _ => decide (known ≠ [2])) "q.jpg" =
        Except.ok res ∧
      res.Sublist ((AlbumIndex.mk ["a.jpg", "b.jpg"]
        [("a.jpg", [1]), ("b.jpg", [2]), ("a.jpg", [3])]).link.map
          Prod.fst) ∧
      ∀ f, res.count f = ((AlbumIndex.mk ["a.jpg", "b.jpg"]
        [("a.jpg", [1]), ("b.jpg", [2]), ("a.jpg", [3])]).link.filter
          (fun p => (fun known _ => decide (known ≠ [2])) p.2 [1] &&
            decide (p.1 = f))).length :=
  ⟨rfl, find_face_single _ _ _ _ _ rfl⟩

/- ===== Helper lemmas for the numpy codec ===== -/

theorem natToLE_length (k n : Nat) : (natToLE k n).length = k := by
  induction k generalizing n with
  | zero => rfl
  | succ k ih => simp [natToLE, ih]

theorem leToNat_natToLE (k n : Nat) (h : n < 256 ^ k) :
    leToNat (natToLE k n) = n := by
  induction k generalizing n with
  | zero =>
    have : n = 0 := by simpa using h
    simp [this, natToLE, leToNat]
  | succ k ih =>
    have hdiv : n / 256 < 256 ^ k := by
      rw [Nat.div_lt_iff_lt_mul (by omega)]
      calc n < 256 ^ (k + 1) := h
      _ = 256 ^ k * 256 := by rw [pow_succ]
    rw [natToLE, leToNat, ih _ hdiv]
    omega

theorem take_append_len {α : Type} (l1 l2 : List α) (k : Nat)
    (h : l1.length = k) : (l1 ++ l2).take k = l1 := by
  subst h
  induction l1 with
  | nil => rfl
  | cons a t ih => simp [ih]

theorem drop_append_len {α : Type} (l1 l2 : List α) (k : Nat)
    (h : l1.length = k) : (l1 ++ l2).drop k = l2 := by
  subst h
  induction l1 with
  | nil => rfl
  | cons a t ih => simp [ih]

theorem natToDecDigits_of_lt (n : Nat) (h : n < 10) :
    natToDecDigits n = [n] := by
  unfold natToDecDigits
  rw [dif_pos h]

theorem natToDecDigits_of_ge (n : Nat) (h : ¬n < 10) :
    natToDecDigits n = natToDecDigits (n / 10) ++ [n % 10] := by
  conv_lhs => rw [natToDecDigits]
  rw [dif_neg h]

theorem natToDecDigits_length_le (k : Nat) :
    ∀ n, n < 10 ^ k → 1 ≤ k → (natToDecDigits n).length ≤ k := by
  induction k with
  | zero => omega
  | succ k ih =>
    intro n hn _
    by_cases h10 : n < 10
    · rw [natToDecDigits_of_lt n h10]
      simp
    · rw [natToDecDigits_of_ge n h10]
      have hk1 : 1 ≤ k := by
        by_contra hk
        have : k = 0 := by omega
        subst this
        simp at hn
        omega
      have hdiv : n / 10 < 10 ^ k := by
        rw [Nat.div_lt_iff_lt_mul (by omega)]
        calc n < 10 ^ (k + 1) := hn
        _ = 10 ^ k * 10 := by rw [pow_succ]
      have := ih (n / 10) hdiv hk1
      simp only [List.length_append, List.length_cons,
        List.length_nil]
      omega

theorem readDec_nondigit (c : Nat) (l : List Nat) (acc : Nat)
    (h : c < 48) : readDec (c :: l) acc = (acc, c :: l) := by
  rw [readDec, if_neg]
  omega

theorem readDec_ascii (n : Nat) :
    ∀ l acc, readDec (natToAscii n ++ l) acc =
      readDec l (acc * 10 ^ (natToDecDigits n).length + n) := by
  induction n using Nat.strong_induction_on with
  | _ n ih =>
    intro l acc
    by_cases h10 : n < 10
    · rw [natToAscii, natToDecDigits_of_lt n h10]
      simp only [List.map_cons, List.map_nil, List.cons_append,
        List.nil_append, List.length_cons, List.length_nil]
      rw [readDec, if_pos (by omega)]
      have : n + 48 - 48 = n := by omega
      rw [this, pow_one]
    · rw [natToAscii, natToDecDigits_of_ge n h10]
      simp only [List.map_append, List.map_cons, List.map_nil,
        List.append_assoc, List.cons_append, List.nil_append,
        List.length_append, List.length_cons, List.length_nil]
      rw [← natToAscii,
        ih (n / 10) (Nat.div_lt_self (by omega) (by omega))]
      rw [readDec, if_pos (by omega)]
      have h1 : n % 10 + 48 - 48 = n % 10 := by omega
      rw [h1]
      have h2 : (acc * 10 ^ (natToDecDigits (n / 10)).length + n / 10)
          * 10 + n % 10 =
          acc * 10 ^ ((natToDecDigits (n / 10)).length + 1) + n := by
        rw [pow_succ]
        have := Nat.div_add_mod n 10
        nlinarith
      rw [h2]

theorem readDec_ascii_stop (n c : Nat) (l : List Nat) (h : c < 48) :
    readDec (natToAscii n ++ c :: l) 0 = (n, c :: l) := by
  rw [readDec_ascii n (c :: l) 0, Nat.zero_mul, Nat.zero_add,
    readDec_nondigit c l n h]

theorem bytesOfVec_length (v : Vec) :
    (bytesOfVec v).length = 8 * v.length := by
  induction v with
  | nil => rfl
  | cons x xs ih =>
    rw [bytesOfVec, List.length_append, natToLE_length, ih,
      List.length_cons]
    omega

theorem readVec_bytesOfVec (v : Vec) (h : ∀ x ∈ v, x < 2 ^ 64) :
    readVec v.length (bytesOfVec v) = v := by
  induction v with
  | nil => rfl
  | cons x xs ih =>
    rw [List.length_cons, bytesOfVec, readVec,
      take_append_len _ _ 8 (natToLE_length 8 x),
      drop_append_len _ _ 8 (natToLE_length 8 x),
      leToNat_natToLE 8 x
        (by have := h x (List.mem_cons_self x xs); norm_num; omega),
      ih (fun y hy => h y (List.mem_cons_of_mem x hy))]

/- ===== C7: the storage codec round-trips exactly ===== -/

/-- C7: the codec registered with sqlite is lossless: for every
embedding vector (a list of float64 bit patterns, below 2^64 each, of
any physically realisable length), deserialising its serialised blob
returns the vector exactly, bit for bit — so every vector written via
insert is read back unchanged by list_links. -/
theorem convert_adapt_roundtrip (v : Vec) (hx : ∀ x ∈ v, x < 2 ^ 64)
    (hn : v.length < 10 ^ 18) :
    convert_numpy_array (adapt_numpy_array v) = some v := by
  set n := v.length with hn_def
  have hdig : (natToDecDigits n).length ≤ 19 :=
    natToDecDigits_length_le 19 n (lt_trans hn (by norm_num))
      (by norm_num)
  have hbody : (dictBody n).length = 56 + (natToDecDigits n).length := by
    rw [dictBody, natToAscii]
    simp [dictHead, dictTail]
    omega
  have hpad : padLen n < 64 := Nat.mod_lt _ (by norm_num)
  have hHl : (headerDict n).length =
      (dictBody n).length + padLen n + 1 := by
    rw [headerDict]
    simp
    omega
  have hHlt : (headerDict n).length < 65536 := by omega
  have hadapt : adapt_numpy_array v = npyMagic ++
      (natToLE 2 (headerDict n).length ++
        (headerDict n ++ bytesOfVec v)) := by
    simp only [adapt_numpy_array, ← hn_def, List.append_assoc]
  have h8 : (adapt_numpy_array v).take 8 = npyMagic := by
    rw [hadapt]
    exact take_append_len _ _ 8 rfl
  have hd8 : (adapt_numpy_array v).drop 8 =
      natToLE 2 (headerDict n).length ++
        (headerDict n ++ bytesOfVec v) := by
    rw [hadapt]
    exact drop_append_len _ _ 8 rfl
  have ht2 : ((adapt_numpy_array v).drop 8).take 2 =
      natToLE 2 (headerDict n).length := by
    rw [hd8]
    exact take_append_len _ _ 2 (natToLE_length 2 _)
  have hle : leToNat (natToLE 2 (headerDict n).length) =
      (headerDict n).length :=
    leToNat_natToLE 2 _
      (by rw [show (256 : Nat) ^ 2 = 65536 by norm_num]; exact hHlt)
  have hd10 : (adapt_numpy_array v).drop 10 =
      headerDict n ++ bytesOfVec v := by
    rw [show (10 : Nat) = 8 + 2 from rfl, ← List.drop_drop, hd8]
    exact drop_append_len _ _ 2 (natToLE_length 2 _)
  have hdict : (headerDict n ++ bytesOfVec v).take
      (headerDict n).length = headerDict n :=
    take_append_len _ _ _ rfl
  have hdata : (headerDict n ++ bytesOfVec v).drop
      (headerDict n).length = bytesOfVec v :=
    drop_append_len _ _ _ rfl
  have hdhead : (headerDict n).take dictHead.length = dictHead := by
    rw [headerDict, dictBody]
    simp only [List.append_assoc]
    exact take_append_len _ _ _ rfl
  have hdrop51 : (headerDict n).drop dictHead.length =
      natToAscii n ++ (dictTail ++
        (List.replicate (padLen n) 32 ++ [10])) := by
    rw [headerDict, dictBody]
    simp only [List.append_assoc]
    exact drop_append_len _ _ _ rfl
  have hread : (readDec ((headerDict n).drop dictHead.length) 0).1
      = n := by
    rw [hdrop51, dictTail]
    simp only [List.cons_append]
    rw [readDec_ascii_stop n 44 _ (by omega)]
  have hlen8 : n * 8 ≤ (bytesOfVec v).length := by
    rw [bytesOfVec_length, ← hn_def]
    omega
  have hrv : readVec n (bytesOfVec v) = v := by
    rw [hn_def]
    exact readVec_bytesOfVec v hx
  simp only [convert_numpy_array, h8, ht2, hle, hd10, hdict, hdata,
    hdhead, hread, hrv, hlen8, if_pos rfl]
  simp

/-- C7 witness: a concrete two-entry vector round-trips through the
blob format unchanged. -/
theorem convert_adapt_roundtrip_witness :
    ((∀ x ∈ ([5, 2] : Vec), x < 2 ^ 64) ∧
      ([5, 2] : Vec).length < 10 ^ 18) ∧
    convert_numpy_array (adapt_numpy_array [5, 2]) = some [5, 2] :=
  ⟨⟨by decide, by norm_num⟩,
    convert_adapt_roundtrip [5, 2] (by decide) (by norm_num)⟩

end FaceSearch
